import Mathlib

/-!
Verification of the external-access policy engine and content rendering
pipeline of the sosumi.ai service.

The TypeScript sources are shallowly embedded: pure functions become Lean
functions over `String`/`List Char`, the stateful robots cache becomes
explicit state passing, fallible code returns `Except`, and network I/O is
abstracted into oracles (`String → HttpResponse`) so that fetch counts are
observable.  JavaScript string primitives (`trim`, `toLowerCase`, `split`,
regular expressions) are modelled on their ASCII fragment, which covers all
inputs the policy code manipulates (hostnames, robots.txt directives,
HTTP header tokens).
-/

namespace Sosumi

/-- Character class trimmed by JavaScript `String.prototype.trim` restricted
to ASCII: space, tab, line feed, carriage return, vertical tab, form feed. -/
def isJsWhitespaceChar (c : Char) : Bool :=
  c.val = 32 || c.val = 9 || c.val = 10 || c.val = 13 || c.val = 11 || c.val = 12

/-- Trim leading and trailing JavaScript whitespace from a character list. -/
def trimChars (l : List Char) : List Char :=
  ((l.dropWhile isJsWhitespaceChar).reverse.dropWhile isJsWhitespaceChar).reverse

/-- JavaScript `String.prototype.trim` (ASCII fragment). -/
def jsTrim (s : String) : String :=
  String.mk (trimChars s.data)

/-- JavaScript `String.prototype.toLowerCase` on ASCII input.  Lean's
`Char.toLower` lowers exactly the ASCII letters, matching the ASCII
fragment of the JavaScript function. -/
def jsLower (s : String) : String :=
  String.mk (s.data.map Char.toLower)

/-- Does the first list occur at the start of the second? -/
def startsWithChars : List Char → List Char → Bool
  | [], _ => true
  | _ :: _, [] => false
  | a :: as, b :: bs => a = b && startsWithChars as bs

/-- Does the first list occur at the end of the second? -/
def endsWithChars (suffix s : List Char) : Bool :=
  startsWithChars suffix.reverse s.reverse

/-- Residue of `s` after the first occurrence of `seg`, if `seg` occurs in
`s` (the semantics of a regular-expression search for a literal). -/
def findAfter (seg : List Char) : List Char → Option (List Char)
  | [] => if startsWithChars seg [] then some [] else none
  | c :: t =>
    if startsWithChars seg (c :: t) then some ((c :: t).drop seg.length)
    else findAfter seg t

/-- Does `needle` occur as a contiguous segment of `hay`?  Models the
JavaScript `String.prototype.includes`. -/
def containsSeg (needle : List Char) (hay : List Char) : Bool :=
  (findAfter needle hay).isSome

/-- Split a character list at every occurrence of the separator character,
keeping empty pieces, as JavaScript `String.prototype.split` does. -/
def splitOnChar (sep : Char) : List Char → List (List Char)
  | [] => [[]]
  | c :: t =>
    if c = sep then [] :: splitOnChar sep t
    else match splitOnChar sep t with
      | [] => [[c]]
      | piece :: rest => (c :: piece) :: rest

/-- Split on the JavaScript regular expression `/\r?\n/`: every line feed is
a separator and consumes an immediately preceding carriage return. -/
def splitLinesAux : List Char → List Char → List String
  | [], acc => [String.mk acc.reverse]
  | '\n' :: rest, acc =>
    let piece := match acc with
      | '\r' :: acc' => acc'.reverse
      | _ => acc.reverse
    String.mk piece :: splitLinesAux rest []
  | c :: rest, acc => splitLinesAux rest (c :: acc)

/-- Split a string into lines on `/\r?\n/`. -/
def splitLines (s : String) : List String :=
  splitLinesAux s.data []

/-! ## Robots.txt parsing and evaluation

Embedded from `src/lib/external/policy.ts` (the revision with the in-repo
robots.txt parser): `stripComments`, `parseRobotsGroups`,
`userAgentMatches`, `patternMatchesPath`, `normalizedPatternLength` and
`evaluateRobotsPolicy`. -/

/-- The identifying user agent string `EXTERNAL_DOC_USER_AGENT`. -/
def EXTERNAL_DOC_USER_AGENT : String := "sosumi-ai/1.0 (+https://sosumi.ai/#bot)"

/-- Drop everything from the first `#` on, as `stripComments` does with
`line.indexOf("#")` and `line.slice`. -/
def stripComments (line : String) : String :=
  String.mk (line.data.takeWhile (· ≠ '#'))

/-- One `Allow`/`Disallow` rule; `kind` is the lower-cased directive key
exactly as the TypeScript stores it (`"allow"` or `"disallow"`). -/
structure RobotsRule where
  kind : String
  pattern : String
  deriving Repr, DecidableEq

/-- One robots.txt group: the accumulated `User-agent` values (lower-cased)
and the rules that follow them. -/
structure RobotsGroup where
  agents : List String
  rules : List RobotsRule
  deriving Repr, DecidableEq

/-- Process the lines of a robots.txt file, threading the current group,
following the loop body of `parseRobotsGroups`. -/
def parseRobotsLines : List String → RobotsGroup → List RobotsGroup
  | [], cur => if cur.agents.isEmpty then [] else [cur]
  | rawLine :: rest, cur =>
    let line := jsTrim (stripComments rawLine)
    if line = "" then parseRobotsLines rest cur
    else
      let pre := line.data.takeWhile (· ≠ ':')
      if pre.length = line.data.length then parseRobotsLines rest cur
      else
        let key := jsLower (jsTrim (String.mk pre))
        let value := jsTrim (String.mk (line.data.drop (pre.length + 1)))
        if key = "user-agent" then
          if !cur.agents.isEmpty && !cur.rules.isEmpty then
            cur :: parseRobotsLines rest ⟨[jsLower value], []⟩
          else
            parseRobotsLines rest ⟨cur.agents ++ [jsLower value], cur.rules⟩
        else if key = "allow" || key = "disallow" then
          if cur.agents.isEmpty then parseRobotsLines rest cur
          else parseRobotsLines rest ⟨cur.agents, cur.rules ++ [⟨key, value⟩]⟩
        else parseRobotsLines rest cur

/-- `parseRobotsGroups`: split into lines and fold them into groups. -/
def parseRobotsGroups (robotsText : String) : List RobotsGroup :=
  parseRobotsLines (splitLines robotsText) ⟨[], []⟩

/-- `userAgentMatches`: empty rule never matches, `*` always matches,
otherwise case-insensitive substring containment in the actual agent. -/
def userAgentMatches (ruleUserAgent actualUserAgent : String) : Bool :=
  if ruleUserAgent = "" then false
  else if ruleUserAgent = "*" then true
  else containsSeg (jsLower ruleUserAgent).data (jsLower actualUserAgent).data

/-- Do the segments occur in `s`, in order, with arbitrary gaps?  This is
the test of the regular expression `s0.*s1.*…` once the anchored head has
been stripped; searching each segment at its leftmost occurrence is
complete for this existence question. -/
def segsInOrder : List (List Char) → List Char → Bool
  | [], _ => true
  | seg :: more, s =>
    match findAfter seg s with
    | some rest => segsInOrder more rest
    | none => false

/-- Match an end-anchored wildcard pattern: with segments
`s0 :: mids ++ [sn]` the path must start with `s0`, end with `sn`, and
contain the middle segments in order strictly between the two; with a
single segment the whole path must equal it. -/
def anchoredTailMatch (u : List Char) : List (List Char) → Bool
  | [] => u.isEmpty
  | rest =>
    match rest.reverse with
    | [] => u.isEmpty
    | sn :: midsRev =>
      decide (sn.length ≤ u.length) && endsWithChars sn u &&
        segsInOrder midsRev.reverse (u.take (u.length - sn.length))

/-- `patternMatchesPath`: the TypeScript escapes the pattern, turns each
`*` into `.*`, keeps a trailing `$` as an end anchor and tests the regular
expression `^…` against the path.  The embedding tests equivalently by
splitting the pattern body at `*`: the first segment is anchored at the
start, the remaining segments must occur in order (with the last one
anchored at the end when the pattern ends in `$`).  An empty pattern makes
the function return `true`, i.e. it matches every path. -/
def patternMatchesPath (pattern path : String) : Bool :=
  if pattern = "" then true
  else
    let endsWithDollar := pattern.data.getLast? = some '$'
    let body := if endsWithDollar then pattern.data.dropLast else pattern.data
    match splitOnChar '*' body with
    | [] => false
    | s0 :: restSegs =>
      if endsWithDollar then
        startsWithChars s0 path.data &&
          anchoredTailMatch (path.data.drop s0.length) restSegs
      else
        startsWithChars s0 path.data &&
          segsInOrder restSegs (path.data.drop s0.length)

/-- `normalizedPatternLength`: the pattern's length with every `$` removed
(`pattern.replace(/\$/g, "").length`). -/
def normalizedPatternLength (pattern : String) : Nat :=
  (pattern.data.filter (· ≠ '$')).length

/-- The groups whose agent list matches the user agent, i.e. the
`matchingGroups` binding inside `evaluateRobotsPolicy`. -/
def matchingGroups (robotsText userAgent : String) : List RobotsGroup :=
  (parseRobotsGroups robotsText).filter
    (fun group => group.agents.any (fun agent => userAgentMatches agent userAgent))

/-- One step of the winning-rule fold in `evaluateRobotsPolicy`: a rule that
matches the path replaces the current winner when it is strictly longer, or
when it ties in length and is an `allow` rule. -/
def winningRuleStep (path : String) (winning : Option (String × Nat)) (rule : RobotsRule) :
    Option (String × Nat) :=
  if !patternMatchesPath rule.pattern path then winning
  else
    let current := (rule.kind, normalizedPatternLength rule.pattern)
    match winning with
    | none => some current
    | some (kind, len) =>
      if current.2 > len then some current
      else if current.2 = len && current.1 = "allow" then some current
      else some (kind, len)

/-- `evaluateRobotsPolicy`: no matching group → allowed; otherwise fold all
matching groups' rules to the winning rule; no winner → allowed; else the
winner's kind decides. -/
def evaluateRobotsPolicy (robotsText path userAgent : String) : Bool :=
  let mg := matchingGroups robotsText userAgent
  if mg.isEmpty then true
  else
    let winning := mg.foldl (fun w group => group.rules.foldl (winningRuleStep path) w) none
    match winning with
    | none => true
    | some (kind, _) => kind = "allow"

/-! ## Host policy

Embedded from `src/lib/external/policy.ts`: `LOCAL_HOSTNAMES`,
`isPrivateIPv4`, `isPrivateIPv6`, `isLocalOrPrivateHost`, `parseHostList`,
`isHostListed`, `assertHostPolicy` and `assertExternalDocumentationAccess`. -/

/-- The operator configuration `ExternalPolicyEnv` with its two optional
newline- or comma-delimited host lists. -/
structure ExternalPolicyEnv where
  EXTERNAL_DOC_HOST_ALLOWLIST : Option String := none
  EXTERNAL_DOC_HOST_BLOCKLIST : Option String := none
  deriving Repr

/-- `ExternalAccessError` carries a message and an HTTP status. -/
structure ExternalAccessError where
  message : String
  status : Nat
  deriving Repr, DecidableEq

/-- The literal local hostnames of `LOCAL_HOSTNAMES`. -/
def LOCAL_HOSTNAMES : List String := ["localhost", "127.0.0.1", "::1"]

/-- Decimal value of a digit string (the relevant fragment of JavaScript
`Number.parseInt(octet, 10)`, whose argument here is one to three digits). -/
def decimalValue (l : List Char) : Nat :=
  l.foldl (fun acc c => acc * 10 + (c.toNat - 48)) 0

/-- Does the octet match `/^\d{1,3}$/`? -/
def isOctetShaped (l : List Char) : Bool :=
  !l.isEmpty && decide (l.length ≤ 3) && l.all (fun c => c.isDigit)

/-- `isPrivateIPv4`: four octets of one to three digits each, none above
255, first octet 10, 127 or 0, or one of the prefix pairs 169.254,
172.16–31, 192.168. -/
def isPrivateIPv4 (hostname : String) : Bool :=
  let octets := splitOnChar '.' hostname.data
  if octets.length ≠ 4 || octets.any (fun o => !isOctetShaped o) then false
  else
    let nums := octets.map decimalValue
    if nums.any (fun v => v > 255) then false
    else
      match nums with
      | a :: b :: _ =>
        a = 10 || a = 127 || a = 0 || (a = 169 && b = 254) ||
          (a = 172 && decide (16 ≤ b) && decide (b ≤ 31)) || (a = 192 && b = 168)
      | _ => false

/-- Strip one leading `[` and one trailing `]`, the effect of
`replace(/^\[|\]$/g, "")`. -/
def stripBrackets (l : List Char) : List Char :=
  let l := match l with
    | '[' :: t => t
    | _ => l
  if l.getLast? = some ']' then l.dropLast else l

/-- `isPrivateIPv6`: after lower-casing and bracket stripping, `::1` or a
`fc`/`fd`/`fe8`/`fe9`/`fea`/`feb` prefix. -/
def isPrivateIPv6 (hostname : String) : Bool :=
  let normalized := stripBrackets (jsLower hostname).data
  normalized = "::1".data ||
    startsWithChars "fc".data normalized || startsWithChars "fd".data normalized ||
    startsWithChars "fe8".data normalized || startsWithChars "fe9".data normalized ||
    startsWithChars "fea".data normalized || startsWithChars "feb".data normalized

/-- `isLocalOrPrivateHost`: literal local names, any `.local` suffix, or a
private IPv4/IPv6 address. -/
def isLocalOrPrivateHost (hostname : String) : Bool :=
  hostname ∈ LOCAL_HOSTNAMES ||
    endsWithChars ".local".data hostname.data ||
    isPrivateIPv4 hostname ||
    isPrivateIPv6 hostname

/-- Split on the JavaScript regular expression `/\r?\n|,/`: line feeds
(consuming a preceding carriage return) and commas are separators. -/
def splitHostListAux : List Char → List Char → List String
  | [], acc => [String.mk acc.reverse]
  | '\n' :: rest, acc =>
    let piece := match acc with
      | '\r' :: acc' => acc'.reverse
      | _ => acc.reverse
    String.mk piece :: splitHostListAux rest []
  | ',' :: rest, acc => String.mk acc.reverse :: splitHostListAux rest []
  | c :: rest, acc => splitHostListAux rest (c :: acc)

/-- `parseHostList`: an absent or empty raw list yields the empty set;
otherwise split on newlines and commas, trim, lower-case and drop empties.
The JavaScript `Set` is modelled as a list whose membership is what the
callers consult. -/
def parseHostList (rawList : Option String) : List String :=
  match rawList with
  | none => []
  | some s =>
    if s = "" then []
    else
      ((splitHostListAux s.data []).map (fun v => jsLower (jsTrim v))).filter (· ≠ "")

/-- `isHostListed`: exact membership, or per candidate a suffix match for a
dot-prefixed pattern, or equality / dot-boundary suffix match for a bare
pattern. -/
def isHostListed (hostname : String) (list : List String) : Bool :=
  if hostname ∈ list then true
  else
    list.any (fun candidate =>
      if startsWithChars ".".data candidate.data then
        endsWithChars candidate.data hostname.data
      else
        hostname = candidate || endsWithChars ("." ++ candidate).data hostname.data)

/-- `assertHostPolicy`: blocklist first, then non-empty allowlist, then the
local/private classification, each throwing a 403 `ExternalAccessError`. -/
def assertHostPolicy (hostname0 : String) (env : ExternalPolicyEnv) :
    Except ExternalAccessError Unit :=
  let hostname := jsLower hostname0
  let allowlist := parseHostList env.EXTERNAL_DOC_HOST_ALLOWLIST
  let blocklist := parseHostList env.EXTERNAL_DOC_HOST_BLOCKLIST
  let explicitlyAllowlisted := isHostListed hostname allowlist
  if isHostListed hostname blocklist then
    .error ⟨"External host is blocked by configuration.", 403⟩
  else if allowlist.length > 0 && !explicitlyAllowlisted then
    .error ⟨"External host is not allowlisted.", 403⟩
  else if isLocalOrPrivateHost hostname && !explicitlyAllowlisted then
    .error ⟨"External URL points to a local or private host and is not allowlisted.", 403⟩
  else
    .ok ()

/-- `assertExternalDocumentationAccess`: run the host policy first; only on
success consult the robots.txt decision.  The robots layer is abstracted as
an oracle returning the allow/deny verdict together with the number of
network fetches it performed, so that the absence of fetches on a
host-policy rejection is observable in the result. -/
def assertExternalDocumentationAccess (hostname : String) (env : ExternalPolicyEnv)
    (robots : Unit → Bool × Nat) : Except ExternalAccessError Unit × Nat :=
  match assertHostPolicy hostname env with
  | .error e => (.error e, 0)
  | .ok _ =>
    let (allowed, fetches) := robots ()
    (if allowed then .ok ()
     else .error ⟨"External host denied access for this path via robots.txt.", 403⟩, fetches)

/-! ## Robots policy results and the per-origin cache

`RobotsPolicyResult` is the tagged union declared in
`src/lib/external/types.ts` (including the `not-found` variant).
`fetchRobotsPolicy` and the caching `getRobotsPolicy` are embedded from
`src/lib/external/policy.ts`; the HTTP fetch is abstracted as an oracle
from origin to response, and resolutions additionally report how many
fetches they performed.  The in-flight map only matters for concurrent
resolutions and is not reachable in the sequential embedding, so it is
omitted; `Date.now()` is passed in as the current time in milliseconds. -/

/-- An HTTP response as the policy code observes it: status and body text.
`ok` is the `Response.ok` of the fetch API. -/
structure HttpResponse where
  status : Nat
  body : String := ""
  deriving Repr, DecidableEq

/-- `Response.ok`: status in the range 200–299. -/
def HttpResponse.ok (r : HttpResponse) : Bool :=
  decide (200 ≤ r.status) && decide (r.status < 300)

/-- The tagged union `RobotsPolicyResult` from `src/lib/external/types.ts`. -/
inductive RobotsPolicyResult where
  | allowAll
  | denyAll
  | notFound
  | rules (robotsText : String)
  deriving Repr, DecidableEq

/-- `fetchRobotsPolicy` as it stands in `src/lib/external/policy.ts`:
404/410 → allow-all, 401/403 → deny-all, other non-success → allow-all,
success → rules over the body. -/
def fetchRobotsPolicy (resp : HttpResponse) : RobotsPolicyResult :=
  if resp.status = 404 || resp.status = 410 then .allowAll
  else if resp.status = 401 || resp.status = 403 then .denyAll
  else if !resp.ok then .allowAll
  else .rules resp.body

/-- `ROBOTS_CACHE_TTL_MS = 5 * 60 * 1000`. -/
def ROBOTS_CACHE_TTL_MS : Nat := 5 * 60 * 1000

/-- `ROBOTS_CACHE_MAX_ENTRIES = 1000`. -/
def ROBOTS_CACHE_MAX_ENTRIES : Nat := 1000

/-- A `robotsPolicyCache` entry. -/
structure RobotsCacheEntry where
  expiresAt : Nat
  policy : RobotsPolicyResult
  deriving Repr, DecidableEq

/-- The cache `Map`, modelled as an association list in insertion order. -/
abbrev RobotsCache := List (String × RobotsCacheEntry)

/-- `pruneExpiredRobotsPolicyEntries`: delete every entry whose
`expiresAt` is at or before `now`. -/
def pruneExpiredRobotsPolicyEntries (now : Nat) (cache : RobotsCache) : RobotsCache :=
  cache.filter (fun e => decide (now < e.2.expiresAt))

/-- `Map.get`. -/
def cacheGet (cache : RobotsCache) (origin : String) : Option RobotsCacheEntry :=
  match cache with
  | [] => none
  | (k, v) :: rest => if k = origin then some v else cacheGet rest origin

/-- `Map.set`: update in place when the key exists (keeping its insertion
position), otherwise append. -/
def cacheSet (cache : RobotsCache) (origin : String) (entry : RobotsCacheEntry) : RobotsCache :=
  match cache with
  | [] => [(origin, entry)]
  | (k, v) :: rest =>
    if k = origin then (k, entry) :: rest
    else (k, v) :: cacheSet rest origin entry

/-- `enforceMaxMapEntries` without an incoming key: while the map exceeds
`maxEntries`, delete the oldest-inserted entry. -/
def enforceMaxMapEntries (cache : RobotsCache) (maxEntries : Nat) : RobotsCache :=
  if cache.length > maxEntries then
    match cache with
    | [] => []
    | _ :: t => enforceMaxMapEntries t maxEntries
  else cache

/-- `getRobotsPolicy` for one sequential resolution: prune expired entries,
return a live cached policy without fetching, otherwise fetch via the
oracle, store the result under the TTL, enforce the maximum cache size and
report one fetch. -/
def getRobotsPolicy (cache : RobotsCache) (origin : String) (now : Nat)
    (oracle : String → HttpResponse) : RobotsPolicyResult × RobotsCache × Nat :=
  let cache := pruneExpiredRobotsPolicyEntries now cache
  match cacheGet cache origin with
  | some cached =>
    if now < cached.expiresAt then (cached.policy, cache, 0)
    else
      let policy := fetchRobotsPolicy (oracle origin)
      (policy,
        enforceMaxMapEntries
          (cacheSet cache origin ⟨now + ROBOTS_CACHE_TTL_MS, policy⟩) ROBOTS_CACHE_MAX_ENTRIES,
        1)
  | none =>
    let policy := fetchRobotsPolicy (oracle origin)
    (policy,
      enforceMaxMapEntries
        (cacheSet cache origin ⟨now + ROBOTS_CACHE_TTL_MS, policy⟩) ROBOTS_CACHE_MAX_ENTRIES,
      1)

/-! ## Robots policy resolution with parent-domain fallback (spec-modelled)

The repository's test suite (`tests/external.test.ts`, "should fall back to
root domain robots.txt …") and the `not-found` variant declared in
`src/lib/external/types.ts` exercise a robots resolver with parent-domain
fallback whose implementation is not among the sources; the
`fetchRobotsPolicy`/`getRobotsPolicy` revisions present in `src` neither
produce `not-found` nor recurse to a parent origin.  The resolver is
therefore modelled from the spec (section 4.3, steps 4–5). -/

/-- Modelled from the spec: step 4 of the robots resolution algorithm,
whose implementation (the producer of the `not-found` variant declared in
`src/lib/external/types.ts`) is missing from `src`.  "HTTP 404 or 410 →
`not-found`.  HTTP 401 or 403 → `deny-all`.  Any other non-success status →
`allow-all` (fail open).  Success → `rules(body text)`." -/
def robotsStatusToPolicy (resp : HttpResponse) : RobotsPolicyResult :=
  if resp.status = 404 || resp.status = 410 then .notFound
  else if resp.status = 401 || resp.status = 403 then .denyAll
  else if !resp.ok then .allowAll
  else .rules resp.body

/-- Join host labels with dots. -/
def hostOfLabels (labels : List String) : String :=
  String.intercalate "." labels

/-- Modelled from the spec: step 5 of the robots resolution algorithm,
whose implementation is missing from `src`.  "If the result is `not-found`
and the origin's host has a reducible parent domain (more than two labels;
stop once only a two-label root remains), recursively resolve the parent
origin's robots policy and adopt that result instead."  The host is given
as its dot-separated labels; the oracle maps a host to its robots.txt
response, and the second component records the hosts fetched, in order. -/
def resolveRobotsWithFallback (oracle : String → HttpResponse) :
    List String → RobotsPolicyResult × List String
  | l₀ :: l₁ :: l₂ :: rest =>
    let host := hostOfLabels (l₀ :: l₁ :: l₂ :: rest)
    match robotsStatusToPolicy (oracle host) with
    | .notFound =>
      let (parentResult, parentFetched) :=
        resolveRobotsWithFallback oracle (l₁ :: l₂ :: rest)
      (parentResult, host :: parentFetched)
    | other => (other, [host])
  | labels =>
    let host := hostOfLabels labels
    match robotsStatusToPolicy (oracle host) with
    | .notFound => (.notFound, [host])
    | other => (other, [host])

/-- Modelled from the spec: "If the parent also resolves to `not-found`
(recursively bottoming out), the final effective result is `allow-all`." -/
def effectiveRobotsPolicy (p : RobotsPolicyResult) : RobotsPolicyResult :=
  match p with
  | .notFound => .allowAll
  | other => other

/-! ## URL validation

Embedded from `validateExternalDocumentationUrl` and
`hasControlOrWhitespace` in `src/lib/external/policy.ts`.  WHATWG URL
parsing (`new URL(rawUrl)`) is abstracted as an oracle producing the
parsed components, `none` standing for a thrown parse error. -/

/-- The components of a parsed WHATWG URL that the validator consults. -/
structure URLParts where
  protocol : String
  username : String := ""
  password : String := ""
  hostname : String := ""
  pathname : String := "/"
  search : String := ""
  hash : String := ""
  deriving Repr, DecidableEq

/-- `hasControlOrWhitespace`: any character with code at most 0x20 or equal
to 0x7f. -/
def hasControlOrWhitespace (value : String) : Bool :=
  value.data.any (fun c => c.toNat ≤ 0x20 || c.toNat = 0x7f)

/-- `validateExternalDocumentationUrl`: reject empty or
control/whitespace-bearing input, parse failures, non-https schemes,
embedded credentials and fragments, otherwise return the parsed URL. -/
def validateExternalDocumentationUrl (rawUrl : String)
    (parse : String → Option URLParts) : Except ExternalAccessError URLParts :=
  if rawUrl = "" || hasControlOrWhitespace rawUrl then
    .error ⟨"Invalid external URL.", 400⟩
  else
    match parse rawUrl with
    | none => .error ⟨"Invalid external URL.", 400⟩
    | some parsedUrl =>
      if parsedUrl.protocol ≠ "https:" then
        .error ⟨"Only https:// external URLs are supported.", 400⟩
      else if parsedUrl.username ≠ "" || parsedUrl.password ≠ "" then
        .error ⟨"Credentialed URLs are not supported.", 400⟩
      else if parsedUrl.hash ≠ "" then
        .error ⟨"URL fragments are not supported.", 400⟩
      else
        .ok parsedUrl

/-- The URL validation error taxonomy named by the spec (section 4.1). -/
inductive UrlValidationError where
  | invalidURL
  | unsupportedScheme
  | credentialedURL
  | fragmentNotSupported
  deriving Repr, DecidableEq

/-- Modelled from the spec (section 4.1), as the specification side of the
refinement: reject empty input or input containing any ASCII control
character or whitespace with `InvalidURL`; parse failure → `InvalidURL`;
a scheme other than the secure web scheme → `UnsupportedScheme`; embedded
userinfo → `CredentialedURL`; a non-empty fragment →
`FragmentNotSupported`; otherwise the parsed URL unchanged. -/
def validateUrlSpec (rawUrl : String) (parse : String → Option URLParts) :
    Except UrlValidationError URLParts :=
  if rawUrl = "" ||
      rawUrl.data.any (fun c => c.toNat < 0x20 || c.toNat = 0x20 || c.toNat = 0x7f) then
    .error .invalidURL
  else
    match parse rawUrl with
    | none => .error .invalidURL
    | some u =>
      if u.protocol ≠ "https:" then .error .unsupportedScheme
      else if u.username ≠ "" || u.password ≠ "" then .error .credentialedURL
      else if u.hash ≠ "" then .error .fragmentNotSupported
      else .ok u

/-- The `ExternalAccessError` the code raises for each spec error kind. -/
def urlErrorOfKind : UrlValidationError → ExternalAccessError
  | .invalidURL => ⟨"Invalid external URL.", 400⟩
  | .unsupportedScheme => ⟨"Only https:// external URLs are supported.", 400⟩
  | .credentialedURL => ⟨"Credentialed URLs are not supported.", 400⟩
  | .fragmentNotSupported => ⟨"URL fragments are not supported.", 400⟩

/-! ## External document fetching

Embedded from `src/lib/external/fetch.ts`: the response handling of
`fetchExternalDocCJSON` (the X-Robots-Tag gate, the 404 branch and the
generic failure branch) and `containsRestrictiveXRobotsTag`. -/

/-- `RESTRICTIVE_X_ROBOTS_TAGS`. -/
def RESTRICTIVE_X_ROBOTS_TAGS : List String := ["none", "noindex", "noai", "noimageai"]

/-- `containsRestrictiveXRobotsTag`: a missing or empty header never
matches; otherwise lower-case, split on commas, trim, drop empties and test
the restrictive tokens for membership. -/
def containsRestrictiveXRobotsTag (headerValue : Option String) : Bool :=
  match headerValue with
  | none => false
  | some v =>
    if v = "" then false
    else
      let tokenSet :=
        ((splitOnChar ',' (jsLower v).data).map (fun t => String.mk (trimChars t))).filter
          (· ≠ "")
      RESTRICTIVE_X_ROBOTS_TAGS.any (fun token => tokenSet.contains token)

/-- A response to the documentation JSON fetch: status, the
`X-Robots-Tag` header (absent or present), status text and body. -/
structure DocFetchResponse where
  status : Nat
  xRobotsTag : Option String := none
  statusText : String := ""
  body : String := ""
  deriving Repr, DecidableEq

/-- `Response.ok` for the documentation fetch. -/
def DocFetchResponse.ok (r : DocFetchResponse) : Bool :=
  decide (200 ≤ r.status) && decide (r.status < 300)

/-- Outcome of `fetchExternalDocCJSON` after the JSON fetch resolves: the
body on success, an `ExternalAccessError`, or the generic `Error`. -/
inductive DocFetchOutcome where
  | success (body : String)
  | accessError (e : ExternalAccessError)
  | genericError (message : String)
  deriving Repr, DecidableEq

/-- The response handling of `fetchExternalDocCJSON`, in source order: the
X-Robots-Tag check first, then the 404 branch, then the generic failure
branch, then success. -/
def handleExternalDocResponse (jsonUrl : String) (response : DocFetchResponse) :
    DocFetchOutcome :=
  if containsRestrictiveXRobotsTag response.xRobotsTag then
    .accessError ⟨"External host denied AI/doc access via X-Robots-Tag response header.", 403⟩
  else if !response.ok then
    if response.status = 404 then
      .accessError ⟨"External documentation page not found at " ++ jsonUrl, 404⟩
    else
      .genericError
        ("Failed to fetch external DocC JSON: " ++ toString response.status ++ " "
          ++ response.statusText)
  else
    .success response.body

/-! ## Content rendering

Embedded from `src/lib/reference/render.ts`: the content tree type, the
recursive Markdown renderers `renderContentArray`, `renderInlineContent`
and `renderTable` with their depth caps, and the link helpers
`convertIdentifierToURL`, `rewriteDocumentationPath` and
`extractTitleFromIdentifier`.  JavaScript's loose `ContentItem` record is
embedded as a single-constructor tree with optional fields; `undefined`
fields are `none`.  The TypeScript `code` field may hold either an array of
lines or a plain string, split here into `codeA`/`codeS`; the `syntax`
field is named `lang`. -/

/-- The content tree node.  Children sit under `items`, `content`,
`inlineContent` and (for tables) `rows`; reference-map entries are also
nodes, carrying `title`, `url`, `alt` and image-variant URLs. -/
inductive CItem where
  | mk
    (ty : String)
    (text : Option String)
    (level : Option Nat)
    (codeA : Option (List String))
    (codeS : Option String)
    (lang : Option String)
    (style : Option String)
    (identifier : Option String)
    (title : Option String)
    (url : Option String)
    (alt : Option String)
    (variantURLs : List String)
    (header : Option String)
    (items : Option (List CItem))
    (content : Option (List CItem))
    (inlineContent : Option (List CItem))
    (rows : Option (List (List (List CItem))))

/-- The node's `url` field. -/
def CItem.url : CItem → Option String
  | .mk _ _ _ _ _ _ _ _ _ u _ _ _ _ _ _ _ => u

/-- The node's `alt` field. -/
def CItem.alt : CItem → Option String
  | .mk _ _ _ _ _ _ _ _ _ _ a _ _ _ _ _ _ => a

/-- The node's image variant URLs (`variants[i].url`). -/
def CItem.variantURLs : CItem → List String
  | .mk _ _ _ _ _ _ _ _ _ _ _ v _ _ _ _ _ => v

/-- The node's `title` field. -/
def CItem.title : CItem → Option String
  | .mk _ _ _ _ _ _ _ _ t _ _ _ _ _ _ _ _ => t

/-- A reference map: identifier to reference-map node, `none` for a missing
entry (`references?.[identifier]`). -/
abbrev RefMap := String → Option CItem

/-- JavaScript template interpolation of a possibly-undefined string
(`${undefined}` renders as `"undefined"`). -/
def jsTemplate (o : Option String) : String :=
  o.getD "undefined"

/-- JavaScript `a || d` for strings: an absent or empty string falls back. -/
def jsOrStr (o : Option String) (d : String) : String :=
  match o with
  | some s => if s = "" then d else s
  | none => d

/-- JavaScript `a || d` for numbers: absent or zero falls back. -/
def jsOrNat (o : Option Nat) (d : Nat) : Nat :=
  match o with
  | some n => if n = 0 then d else n
  | none => d

/-- JavaScript truthiness of a possibly-undefined string. -/
def jsTruthyOpt (o : Option String) : Bool :=
  match o with
  | some s => s ≠ ""
  | none => false

/-- `"#".repeat(n)`. -/
def hashRepeat (n : Nat) : String :=
  String.mk (List.replicate n '#')

/-- `replace(/\n\n$/, "")`: remove one trailing blank line if present. -/
def stripTrailingDoubleNewline (s : String) : String :=
  if endsWithChars "\n\n".data s.data then String.mk s.data.dropLast.dropLast else s

/-- The table cell escape: `s.replace(/\|/g, "\\|").replace(/\n/g, " ").trim()`. -/
def escapeCell (s : String) : String :=
  jsTrim ((s.replace "|" "\\|").replace "\n" " ")

/-- `mapAsideStyleToCallout`. -/
def mapAsideStyleToCallout (style : String) : String :=
  let s := jsLower style
  if s = "warning" then "WARNING"
  else if s = "important" then "IMPORTANT"
  else if s = "caution" then "CAUTION"
  else if s = "tip" then "TIP"
  else if s = "deprecated" then "WARNING"
  else "NOTE"

/-- `rewriteDocumentationPath`: an absent or empty path renders as the
empty string; without an external origin, or for a path not under
`/documentation/`, the path is returned unchanged; otherwise it is routed
through the proxy as `/external/<origin><path>`. -/
def rewriteDocumentationPath (path : Option String) (externalOrigin : Option String) : String :=
  match path with
  | none => ""
  | some p =>
    if p = "" then ""
    else
      match externalOrigin with
      | none => p
      | some origin =>
        if origin = "" || !startsWithChars "/documentation/".data p.data then p
        else "/external/" ++ origin ++ p

/-- Search for the regular expression `/\/documentation\/(.+)/`: the
capture after the first occurrence of `/documentation/` that is followed by
at least one non-newline character. -/
def findDocCapture : List Char → Option (List Char)
  | [] => none
  | c :: t =>
    if startsWithChars "/documentation/".data (c :: t) then
      let cap := ((c :: t).drop "/documentation/".length).takeWhile (· ≠ '\n')
      if cap.isEmpty then findDocCapture t else some cap
    else findDocCapture t

/-- `convertIdentifierToURL`: a reference-map entry with a truthy `url`
wins; otherwise scheme-specific identifier prefixes derive a
`/documentation/…` path; otherwise the identifier itself is returned. -/
def convertIdentifierToURL (identifier : String) (references : RefMap)
    (externalOrigin : Option String) : String :=
  let refUrl : Option String :=
    match references identifier with
    | some r => r.url
    | none => none
  if jsTruthyOpt refUrl then rewriteDocumentationPath refUrl externalOrigin
  else if startsWithChars "doc://com.apple.SwiftUI/documentation/".data identifier.data then
    rewriteDocumentationPath
      (some ("/documentation/" ++
        String.mk (identifier.data.drop "doc://com.apple.SwiftUI/documentation/".length)))
      externalOrigin
  else if startsWithChars "doc://com.apple.".data identifier.data then
    match findDocCapture identifier.data with
    | some cap =>
      rewriteDocumentationPath (some ("/documentation/" ++ String.mk cap)) externalOrigin
    | none => identifier
  else if startsWithChars "doc://".data identifier.data then
    match findDocCapture identifier.data with
    | some cap =>
      rewriteDocumentationPath (some ("/documentation/" ++ String.mk cap)) externalOrigin
    | none => identifier
  else identifier

/-- A word character of the regular expression class `\w`. -/
def isWordChar (c : Char) : Bool :=
  c.isAlphanum || c = '_'

/-- Does this remainder qualify as the optional disambiguation suffix
`(?:-\w+)?$` — empty, or a hyphen followed by word characters? -/
def restQualifies (rest : List Char) : Bool :=
  match rest with
  | [] => true
  | '-' :: w => !w.isEmpty && w.all isWordChar
  | _ => false

/-- The non-greedy split of `/^(.+?)(?:-\w+)?$/`: the shortest non-empty
prefix whose remainder qualifies as an optional `-\w+` suffix. -/
def disambigSplit (pre : List Char) (rest : List Char) : List Char :=
  if restQualifies rest then pre
  else
    match rest with
    | [] => pre
    | c :: t => disambigSplit (pre ++ [c]) t

/-- Insert a space between each lower-case letter immediately followed by
an upper-case letter (`replace(/([a-z])([A-Z])/g, "$1 $2")` with its
non-overlapping global matches). -/
def camelSpace : List Char → List Char
  | a :: b :: rest =>
    if a.isLower && b.isUpper then a :: ' ' :: b :: camelSpace rest
    else a :: camelSpace (b :: rest)
  | l => l

/-- Collapse each whitespace run to one space (`replace(/\s+/g, " ")`). -/
def collapseWs : List Char → List Char
  | [] => []
  | c :: t =>
    if isJsWhitespaceChar c then ' ' :: collapseWs (t.dropWhile isJsWhitespaceChar)
    else c :: collapseWs t
  termination_by l => l.length
  decreasing_by
    · have := (List.dropWhile_sublist (l := t) (p := isJsWhitespaceChar)).length_le
      simp only [List.length_cons]
      omega
    · simp

/-- The camel-case to readable-words conversion shared by both branches of
`extractTitleFromIdentifier`. -/
def camelFormat (l : List Char) : String :=
  jsTrim (String.mk (collapseWs (camelSpace l)))

/-- `extractTitleFromIdentifier`: take the last `/`-separated segment,
strip a disambiguation suffix, preserve method signatures (containing both
parentheses), otherwise split camel case into words. -/
def extractTitleFromIdentifier (identifier : String) : String :=
  let parts := splitOnChar '/' identifier.data
  let lastPart := (parts.getLast?).getD []
  match lastPart with
  | [] => camelFormat lastPart
  | c :: t =>
    let baseName := disambigSplit [c] t
    if baseName.contains '(' && baseName.contains ')' then String.mk baseName
    else camelFormat baseName

mutual

/-- `renderContentArray`: cap the recursion depth at 50, emitting the fixed
placeholder instead of descending, then render each item in order. -/
def renderContentArray (references : RefMap) (externalOrigin : Option String)
    (content : List CItem) (depth : Nat) : String :=
  if depth > 50 then "[Content too deeply nested]"
  else renderContentItems references externalOrigin content depth
  termination_by (sizeOf content, 5)

/-- The item loop of `renderContentArray`. -/
def renderContentItems (references : RefMap) (externalOrigin : Option String) :
    List CItem → Nat → String
  | [], _ => ""
  | item :: rest, depth =>
    renderContentItem references externalOrigin item depth ++
      renderContentItems references externalOrigin rest depth
  termination_by l _ => (sizeOf l, 4)

/-- One iteration of the `renderContentArray` loop, dispatching on the
node kind. -/
def renderContentItem (references : RefMap) (externalOrigin : Option String) :
    CItem → Nat → String
  | .mk ty text level codeA codeS lang style _ _ _ _ _ header items content inlineContent
      rows, depth =>
    if ty = "heading" then
      hashRepeat (min (jsOrNat level 2) 6) ++ " " ++ jsTemplate text ++ "\n\n"
    else if ty = "paragraph" then
      match inlineContent with
      | some ic => renderInlineContent references externalOrigin ic depth ++ "\n\n"
      | none => ""
    else if ty = "codeListing" then
      let code :=
        match codeA with
        | some lines => String.intercalate "\n" lines
        | none => jsOrStr codeS ""
      "```" ++ jsOrStr lang "swift" ++ "\n" ++ code ++ "\n```\n\n"
    else if ty = "unorderedList" then
      match items with
      | some its => renderUnorderedItems references externalOrigin its depth ++ "\n"
      | none => ""
    else if ty = "orderedList" then
      match items with
      | some its => renderOrderedItems references externalOrigin its 0 depth ++ "\n"
      | none => ""
    else if ty = "aside" then
      let calloutType := mapAsideStyleToCallout (jsOrStr style "note")
      let asideContent :=
        match content with
        | some cs => renderContentArray references externalOrigin cs (depth + 1)
        | none => ""
      "> [!" ++ calloutType ++ "]\n> " ++ (jsTrim asideContent).replace "\n" "\n> " ++ "\n\n"
    else if ty = "table" then
      match rows with
      | some rs =>
        if rs.isEmpty then ""
        else
          let md :=
            renderTableRows references externalOrigin (decide (header = some "row")) rs 0 depth
          if md = "" then "" else md ++ "\n"
      | none => ""
    else ""
  termination_by item _ => (sizeOf item, 3)

/-- The list-item loop of the `unorderedList` branch: each item's `content`
(defaulting to the empty array) is rendered one level deeper and a trailing
blank line stripped. -/
def renderUnorderedItems (references : RefMap) (externalOrigin : Option String) :
    List CItem → Nat → String
  | [], _ => ""
  | li :: rest, depth =>
    let itemText :=
      match li with
      | .mk _ _ _ _ _ _ _ _ _ _ _ _ _ _ contentField _ _ =>
        match contentField with
        | some cs => renderContentArray references externalOrigin cs (depth + 1)
        | none => renderContentArray references externalOrigin [] (depth + 1)
    "- " ++ stripTrailingDoubleNewline itemText ++ "\n" ++
      renderUnorderedItems references externalOrigin rest depth
  termination_by l _ => (sizeOf l, 5)

/-- The list-item loop of the `orderedList` branch, carrying the item
index. -/
def renderOrderedItems (references : RefMap) (externalOrigin : Option String) :
    List CItem → Nat → Nat → String
  | [], _, _ => ""
  | li :: rest, index, depth =>
    let itemText :=
      match li with
      | .mk _ _ _ _ _ _ _ _ _ _ _ _ _ _ contentField _ _ =>
        match contentField with
        | some cs => renderContentArray references externalOrigin cs (depth + 1)
        | none => renderContentArray references externalOrigin [] (depth + 1)
    toString (index + 1) ++ ". " ++ stripTrailingDoubleNewline itemText ++ "\n" ++
      renderOrderedItems references externalOrigin rest (index + 1) depth
  termination_by l _ _ => (sizeOf l, 5)

/-- The row loop of `renderTable`: render each row's cells, skip empty
rows, and emit the `---` separator after the first row when it is the
header row. -/
def renderTableRows (references : RefMap) (externalOrigin : Option String)
    (firstRowIsHeader : Bool) : List (List (List CItem)) → Nat → Nat → String
  | [], _, _ => ""
  | row :: rest, rowIndex, depth =>
    let cells := renderTableCells references externalOrigin row depth
    (if cells.isEmpty then ""
     else
       "| " ++ String.intercalate " | " cells ++ " |\n" ++
         (if firstRowIsHeader && rowIndex = 0 then
           "| " ++ String.intercalate " | " (cells.map (fun _ => "---")) ++ " |\n"
          else "")) ++
      renderTableRows references externalOrigin firstRowIsHeader rest (rowIndex + 1) depth
  termination_by l _ _ => (sizeOf l, 5)

/-- The cell loop of `renderTable`: each cell's items are rendered one
level deeper and escaped for a Markdown table. -/
def renderTableCells (references : RefMap) (externalOrigin : Option String) :
    List (List CItem) → Nat → List String
  | [], _ => []
  | cell :: rest, depth =>
    escapeCell (renderContentArray references externalOrigin cell (depth + 1)) ::
      renderTableCells references externalOrigin rest depth
  termination_by l _ => (sizeOf l, 5)

/-- `renderInlineContent`: cap the recursion depth at 20, emitting the
fixed placeholder instead of descending, then render each inline item. -/
def renderInlineContent (references : RefMap) (externalOrigin : Option String)
    (inlineContent : List CItem) (depth : Nat) : String :=
  if depth > 20 then "[Inline content too deeply nested]"
  else renderInlineItems references externalOrigin inlineContent depth
  termination_by (sizeOf inlineContent, 5)

/-- The item loop of `renderInlineContent` (the `.map(…).join("")`; a
returned `undefined` joins as the empty string). -/
def renderInlineItems (references : RefMap) (externalOrigin : Option String) :
    List CItem → Nat → String
  | [], _ => ""
  | item :: rest, depth =>
    renderInlineItem references externalOrigin item depth ++
      renderInlineItems references externalOrigin rest depth
  termination_by l _ => (sizeOf l, 4)

/-- One inline item: text, code voice, cross-reference link, emphasis,
strong, image, or the fallback to the item's text. -/
def renderInlineItem (references : RefMap) (externalOrigin : Option String) :
    CItem → Nat → String
  | .mk ty text _ _ codeS _ _ identifier title _ _ _ _ _ _ inlineContent _, depth =>
    if ty = "text" then text.getD ""
    else if ty = "codeVoice" then "`" ++ jsTemplate codeS ++ "`"
    else if ty = "reference" then
      let linkTitle :=
        jsOrStr title (jsOrStr text
          (if jsTruthyOpt identifier then extractTitleFromIdentifier (identifier.getD "")
           else ""))
      let linkUrl :=
        if jsTruthyOpt identifier then
          convertIdentifierToURL (identifier.getD "") references externalOrigin
        else ""
      "[" ++ linkTitle ++ "](" ++ linkUrl ++ ")"
    else if ty = "emphasis" then
      "*" ++
        (match inlineContent with
         | some ic => renderInlineContent references externalOrigin ic (depth + 1)
         | none => "") ++ "*"
    else if ty = "strong" then
      "**" ++
        (match inlineContent with
         | some ic => renderInlineContent references externalOrigin ic (depth + 1)
         | none => "") ++ "**"
    else if ty = "image" && jsTruthyOpt identifier then
      let ref := references (identifier.getD "")
      let imageUrl : Option String :=
        match ref with
        | some r => r.variantURLs.head?
        | none => none
      let altText : String :=
        match ref with
        | some r => r.alt.getD ""
        | none => ""
      match imageUrl with
      | some u => if u = "" then "" else "![" ++ altText ++ "](" ++ u ++ ")"
      | none => ""
    else jsOrStr text ""
  termination_by item _ => (sizeOf item, 3)

end

/-- A reference-map entry carrying the resolvable URL
`/documentation/x/y`, used to instantiate the link-rewriting theorem. -/
def exampleRefEntry : CItem :=
  .mk "" none none none none none none none (some "Y") (some "/documentation/x/y") none []
    none none none none none

/-- A reference map resolving the identifier
`doc://org.swift.X/documentation/X/Y` to `exampleRefEntry`. -/
def exampleRefMap : RefMap := fun id =>
  if id = "doc://org.swift.X/documentation/X/Y" then some exampleRefEntry else none

/-! ## Theorems -/

/-- C1.  Evaluation of the spec-modelled resolver at the claim's failing
input: when the robots.txt fetch for `reference-ios.daily.co` returns
HTTP 403, the resolver (section 4.3: 401/403 → deny-all, parent fallback
only on not-found) returns deny-all having fetched only
`reference-ios.daily.co` — no follow-up fetch to `daily.co` occurs and the
effective policy denies access, contradicting the claim and the
repository's own test, which expect one follow-up fetch and allowed
access.  (With a 404 instead, the fallback does fire: see the companion
fact inside this theorem, which also shows the 404 chain bottoming out at
not-found with effective result allow-all after exactly one follow-up
fetch to `daily.co`.) -/
theorem c1_resolver_403_issues_no_followup_fetch :
    resolveRobotsWithFallback
        (fun host => if host = "reference-ios.daily.co" then { status := 403 }
          else { status := 200, body := "User-agent: *\nAllow: /" })
        ["reference-ios", "daily", "co"]
      = (RobotsPolicyResult.denyAll, ["reference-ios.daily.co"]) ∧
    effectiveRobotsPolicy RobotsPolicyResult.denyAll = RobotsPolicyResult.denyAll ∧
    resolveRobotsWithFallback (fun _ => { status := 404 }) ["reference-ios", "daily", "co"]
      = (RobotsPolicyResult.notFound, ["reference-ios.daily.co", "daily.co"]) ∧
    effectiveRobotsPolicy RobotsPolicyResult.notFound = RobotsPolicyResult.allowAll := by
  refine ⟨?_, rfl, ?_, rfl⟩ <;> rfl

/-- C5.  Evaluation of the embedded robots evaluator at the claim's failing
input: `patternMatchesPath` returns `true` for the empty pattern, so a
matching group whose only rule is an empty `Disallow:` produces a winning
disallow rule and `evaluateRobotsPolicy` denies every path — the code
contradicts its own comment ("empty value means allow all") and the test
"should treat empty robots disallow as allow-all", which, like the claim,
require the path to stay allowed. -/
theorem c5_empty_disallow_denies_path :
    patternMatchesPath "" "/documentation/example" = true ∧
    evaluateRobotsPolicy "User-agent: *\nDisallow:" "/documentation/example"
      EXTERNAL_DOC_USER_AGENT = false := by
  exact ⟨rfl, by decide⟩

/-- C4 counterexample.  Two robots files whose specific-agent group is
identical (`User-agent: sosumi-ai` / `Allow: /`) but whose wildcard group
differs (`Disallow: /docs` versus `Allow: /docs`) evaluate differently on
the path `/docs/x`: the wildcard group's longer pattern beats the specific
group's `Allow: /`, so the specific-agent group's rules do not alone
determine the outcome. -/
theorem c4_wildcard_content_changes_outcome :
    evaluateRobotsPolicy "User-agent: *\nDisallow: /docs\n\nUser-agent: sosumi-ai\nAllow: /"
      "/docs/x" EXTERNAL_DOC_USER_AGENT = false ∧
    evaluateRobotsPolicy "User-agent: *\nAllow: /docs\n\nUser-agent: sosumi-ai\nAllow: /"
      "/docs/x" EXTERNAL_DOC_USER_AGENT = true := by
  exact ⟨by decide, by decide⟩

/-- C4 as amended.  Every parsed group whose agent list contains the
wildcard `*`, and every group whose agent list contains `sosumi-ai` (a
case-insensitive substring of this system's user agent), is selected into
the matching groups of `evaluateRobotsPolicy`; all selected groups' rules
then compete by longest normalized pattern, so a wildcard group
participates alongside a specific-agent group rather than being
overridden by it. -/
theorem c4_wildcard_and_specific_groups_both_selected (robotsText : String)
    (g : RobotsGroup) (hg : g ∈ parseRobotsGroups robotsText)
    (ha : "*" ∈ g.agents ∨ "sosumi-ai" ∈ g.agents) :
    g ∈ matchingGroups robotsText EXTERNAL_DOC_USER_AGENT := by
  unfold matchingGroups
  rw [List.mem_filter]
  refine ⟨hg, ?_⟩
  rcases ha with h | h
  · exact List.any_eq_true.mpr ⟨"*", h, by decide⟩
  · exact List.any_eq_true.mpr ⟨"sosumi-ai", h, by decide⟩

/-- C4 witness: in the repository's own test file, the specific-agent
group of `User-agent: *` / `Disallow: /` / `User-agent: sosumi-ai` /
`Allow: /documentation/` / `Disallow: /` is among the matching groups. -/
theorem c4_witness :
    (⟨["sosumi-ai"], [⟨"allow", "/documentation/"⟩, ⟨"disallow", "/"⟩]⟩ : RobotsGroup) ∈
      matchingGroups
        "User-agent: *\nDisallow: /\n\nUser-agent: sosumi-ai\nAllow: /documentation/\nDisallow: /"
        EXTERNAL_DOC_USER_AGENT :=
  c4_wildcard_and_specific_groups_both_selected _ _ (by decide) (Or.inr (by decide))

/-- C10.  The X-Robots-Tag gate precedes all status handling in
`fetchExternalDocCJSON`: whenever the response's `X-Robots-Tag` header
contains a restrictive token, the outcome is the 403 access-denied error,
whatever the status — in particular the 404 and generic-failure branches
are unreachable then. -/
theorem c10_xrobots_header_precedes_status (jsonUrl : String) (response : DocFetchResponse)
    (h : containsRestrictiveXRobotsTag response.xRobotsTag = true) :
    handleExternalDocResponse jsonUrl response =
      .accessError ⟨"External host denied AI/doc access via X-Robots-Tag response header.", 403⟩ := by
  unfold handleExternalDocResponse
  rw [h]
  simp

/-- C10 witness: a 404 response carrying `X-Robots-Tag: noindex, noai`
rejects with the 403 access-denied error, not the 404 branch. -/
theorem c10_witness :
    handleExternalDocResponse "https://host.example/data/documentation/x.json"
        { status := 404, xRobotsTag := some "noindex, noai", statusText := "Not Found" } =
      .accessError ⟨"External host denied AI/doc access via X-Robots-Tag response header.", 403⟩ :=
  c10_xrobots_header_precedes_status _ _ (by decide)

/-- Membership in the empty host list always fails. -/
theorem isHostListed_nil (hostname : String) : isHostListed hostname [] = false := by
  simp [isHostListed]

/-- C2 counterexample.  `localhost` is classified local/private and is not
on the configured allowlist (`example.com`), yet the Access Gate rejects it
with the not-allowlisted error rather than the private-host error, because
the non-empty-allowlist check runs first. -/
theorem c2_nonprivate_error_counterexample :
    isLocalOrPrivateHost (jsLower "localhost") = true ∧
    isHostListed (jsLower "localhost") (parseHostList (some "example.com")) = false ∧
    assertHostPolicy "localhost" { EXTERNAL_DOC_HOST_ALLOWLIST := some "example.com" } =
      .error ⟨"External host is not allowlisted.", 403⟩ ∧
    ("External host is not allowlisted." : String) ≠
      "External URL points to a local or private host and is not allowlisted." := by
  refine ⟨by decide, by decide, by rfl, by decide⟩

/-- C2 as amended.  A hostname classified local or private and not
explicitly allow-listed is always rejected by the Access Gate with zero
network fetches; the error is the private-host error whenever no blocklist
entry matches and the allowlist is empty, and otherwise the corresponding
blocklist/allowlist error. -/
theorem c2_private_host_denied_before_any_fetch (hostname : String)
    (env : ExternalPolicyEnv) (robots : Unit → Bool × Nat)
    (hpriv : isLocalOrPrivateHost (jsLower hostname) = true)
    (hallow :
      isHostListed (jsLower hostname) (parseHostList env.EXTERNAL_DOC_HOST_ALLOWLIST) = false) :
    (∃ e, (assertExternalDocumentationAccess hostname env robots).1 = .error e) ∧
    (assertExternalDocumentationAccess hostname env robots).2 = 0 ∧
    (isHostListed (jsLower hostname) (parseHostList env.EXTERNAL_DOC_HOST_BLOCKLIST) = false →
      parseHostList env.EXTERNAL_DOC_HOST_ALLOWLIST = [] →
      (assertExternalDocumentationAccess hostname env robots).1 =
        .error ⟨"External URL points to a local or private host and is not allowlisted.", 403⟩) := by
  have hpol : ∃ e, assertHostPolicy hostname env = .error e ∧
      (isHostListed (jsLower hostname) (parseHostList env.EXTERNAL_DOC_HOST_BLOCKLIST) = false →
        parseHostList env.EXTERNAL_DOC_HOST_ALLOWLIST = [] →
        e = ⟨"External URL points to a local or private host and is not allowlisted.", 403⟩) := by
    by_cases hb :
        isHostListed (jsLower hostname) (parseHostList env.EXTERNAL_DOC_HOST_BLOCKLIST) = true
    · refine ⟨⟨"External host is blocked by configuration.", 403⟩, ?_, ?_⟩
      · simp [assertHostPolicy, hb]
      · intro hbf
        rw [hb] at hbf
        exact absurd hbf (by simp)
    · have hb' :
          isHostListed (jsLower hostname) (parseHostList env.EXTERNAL_DOC_HOST_BLOCKLIST)
            = false := by
        simpa using hb
      by_cases hl : parseHostList env.EXTERNAL_DOC_HOST_ALLOWLIST = []
      · refine ⟨⟨"External URL points to a local or private host and is not allowlisted.", 403⟩,
          ?_, fun _ _ => rfl⟩
        simp [assertHostPolicy, hb', hl, hallow, hpriv, isHostListed_nil]
      · refine ⟨⟨"External host is not allowlisted.", 403⟩, ?_, fun _ h => absurd h hl⟩
        have hlen : 0 < (parseHostList env.EXTERNAL_DOC_HOST_ALLOWLIST).length :=
          List.length_pos.mpr hl
        simp [assertHostPolicy, hb', hallow, hlen]
  obtain ⟨e, he, himp⟩ := hpol
  refine ⟨⟨e, ?_⟩, ?_, ?_⟩
  · simp [assertExternalDocumentationAccess, he]
  · simp [assertExternalDocumentationAccess, he]
  · intro h1 h2
    simp [assertExternalDocumentationAccess, he, himp h1 h2]

/-- C2 witness: with no lists configured, the private address `10.0.0.1`
is rejected with the private-host error and zero fetches. -/
theorem c2_witness :
    (∃ e, (assertExternalDocumentationAccess "10.0.0.1" {} (fun _ => (true, 7))).1 =
      .error e) ∧
    (assertExternalDocumentationAccess "10.0.0.1" {} (fun _ => (true, 7))).2 = 0 ∧
    (isHostListed (jsLower "10.0.0.1")
        (parseHostList (ExternalPolicyEnv.EXTERNAL_DOC_HOST_BLOCKLIST {})) = false →
      parseHostList (ExternalPolicyEnv.EXTERNAL_DOC_HOST_ALLOWLIST {}) = [] →
      (assertExternalDocumentationAccess "10.0.0.1" {} (fun _ => (true, 7))).1 =
        .error ⟨"External URL points to a local or private host and is not allowlisted.", 403⟩) :=
  c2_private_host_denied_before_any_fetch "10.0.0.1" {} (fun _ => (true, 7))
    (by decide) (by decide)

/-- C3.  The spec-modelled robots.txt fetch maps response statuses to
policy results exactly as claimed: 404/410 to not-found, 401/403 to
deny-all, any other non-success status to allow-all, and success to rules
over the body text. -/
theorem c3_robots_fetch_status_mapping (resp : HttpResponse) :
    ((resp.status = 404 ∨ resp.status = 410) → robotsStatusToPolicy resp = .notFound) ∧
    ((resp.status = 401 ∨ resp.status = 403) → robotsStatusToPolicy resp = .denyAll) ∧
    (resp.ok = false → resp.status ≠ 404 → resp.status ≠ 410 → resp.status ≠ 401 →
      resp.status ≠ 403 → robotsStatusToPolicy resp = .allowAll) ∧
    (resp.ok = true → robotsStatusToPolicy resp = .rules resp.body) := by
  refine ⟨?_, ?_, ?_, ?_⟩
  · rintro (h | h) <;> simp [robotsStatusToPolicy, h]
  · rintro (h | h) <;> simp [robotsStatusToPolicy, h]
  · intro hok h404 h410 h401 h403
    simp [robotsStatusToPolicy, h404, h410, h401, h403, hok]
  · intro hok
    have hrange : 200 ≤ resp.status ∧ resp.status < 300 := by
      simpa [HttpResponse.ok] using hok
    have h404 : resp.status ≠ 404 := by omega
    have h410 : resp.status ≠ 410 := by omega
    have h401 : resp.status ≠ 401 := by omega
    have h403 : resp.status ≠ 403 := by omega
    simp [robotsStatusToPolicy, h404, h410, h401, h403, hok]

/-- C3 witness: the four mapping cases at concrete responses. -/
theorem c3_witness :
    robotsStatusToPolicy { status := 404 } = .notFound ∧
    robotsStatusToPolicy { status := 403 } = .denyAll ∧
    robotsStatusToPolicy { status := 500 } = .allowAll ∧
    robotsStatusToPolicy { status := 200, body := "User-agent: *" } =
      .rules "User-agent: *" :=
  ⟨(c3_robots_fetch_status_mapping { status := 404 }).1 (Or.inl rfl),
   (c3_robots_fetch_status_mapping { status := 403 }).2.1 (Or.inr rfl),
   (c3_robots_fetch_status_mapping { status := 500 }).2.2.1 (by decide) (by decide) (by decide)
     (by decide) (by decide),
   (c3_robots_fetch_status_mapping { status := 200, body := "User-agent: *" }).2.2.2 (by decide)⟩

/-- C6.  Starting from an empty cache, a first resolution for an origin
issues exactly one robots.txt fetch and stores the result under the TTL;
a second sequential resolution for the same origin within the TTL window
issues zero fetches and returns the same policy. -/
theorem c6_second_resolution_within_ttl_hits_cache (origin : String)
    (oracle : String → HttpResponse) (now later : Nat) (_h1 : now ≤ later)
    (h2 : later < now + ROBOTS_CACHE_TTL_MS) :
    (getRobotsPolicy [] origin now oracle).2.2 = 1 ∧
    (getRobotsPolicy (getRobotsPolicy [] origin now oracle).2.1 origin later oracle).2.2 = 0 ∧
    (getRobotsPolicy (getRobotsPolicy [] origin now oracle).2.1 origin later oracle).1 =
      (getRobotsPolicy [] origin now oracle).1 := by
  have e1 : getRobotsPolicy [] origin now oracle =
      (fetchRobotsPolicy (oracle origin),
        [(origin, ⟨now + ROBOTS_CACHE_TTL_MS, fetchRobotsPolicy (oracle origin)⟩)], 1) := by
    simp [getRobotsPolicy, pruneExpiredRobotsPolicyEntries, cacheGet, cacheSet,
      enforceMaxMapEntries, ROBOTS_CACHE_MAX_ENTRIES]
  have e2 : getRobotsPolicy
        [(origin, ⟨now + ROBOTS_CACHE_TTL_MS, fetchRobotsPolicy (oracle origin)⟩)] origin later
        oracle =
      (fetchRobotsPolicy (oracle origin),
        [(origin, ⟨now + ROBOTS_CACHE_TTL_MS, fetchRobotsPolicy (oracle origin)⟩)], 0) := by
    simp [getRobotsPolicy, pruneExpiredRobotsPolicyEntries, cacheGet, h2]
  rw [e1, e2]
  exact ⟨rfl, rfl, rfl⟩

/-- C6 witness: concrete origin, oracle and times inside the TTL window. -/
theorem c6_witness :
    (getRobotsPolicy [] "https://docs.example.com" 0
      (fun _ => { status := 200, body := "User-agent: *" })).2.2 = 1 ∧
    (getRobotsPolicy
      (getRobotsPolicy [] "https://docs.example.com" 0
        (fun _ => { status := 200, body := "User-agent: *" })).2.1
      "https://docs.example.com" 299999
      (fun _ => { status := 200, body := "User-agent: *" })).2.2 = 0 ∧
    (getRobotsPolicy
      (getRobotsPolicy [] "https://docs.example.com" 0
        (fun _ => { status := 200, body := "User-agent: *" })).2.1
      "https://docs.example.com" 299999
      (fun _ => { status := 200, body := "User-agent: *" })).1 =
      (getRobotsPolicy [] "https://docs.example.com" 0
        (fun _ => { status := 200, body := "User-agent: *" })).1 :=
  c6_second_resolution_within_ttl_hits_cache "https://docs.example.com"
    (fun _ => { status := 200, body := "User-agent: *" }) 0 299999 (by decide) (by decide)

/-- C7.  With an external origin in effect, a reference whose
reference-map entry resolves to a non-empty URL under `/documentation/` is
rewritten to the proxy form `/external/<origin><path>`. -/
theorem c7_documentation_path_rewritten_to_proxy (identifier : String)
    (references : RefMap) (origin p : String) (r : CItem)
    (href : references identifier = some r) (hurl : r.url = some p) (hp : p ≠ "")
    (hdoc : startsWithChars "/documentation/".data p.data = true) (ho : origin ≠ "") :
    convertIdentifierToURL identifier references (some origin) = "/external/" ++ origin ++ p := by
  unfold convertIdentifierToURL
  rw [href]
  simp only []
  have htruthy : jsTruthyOpt r.url = true := by
    rw [hurl]
    simp [jsTruthyOpt, hp]
  rw [hurl] at htruthy ⊢
  simp [htruthy, rewriteDocumentationPath, hp, ho, hdoc]

/-- C7 witness: the identifier `doc://org.swift.X/documentation/X/Y`
with reference-map URL `/documentation/x/y` and external origin
`https://host.example` yields
`/external/https://host.example/documentation/x/y`. -/
theorem c7_witness :
    convertIdentifierToURL "doc://org.swift.X/documentation/X/Y" exampleRefMap
      (some "https://host.example") = "/external/https://host.example/documentation/x/y" :=
  c7_documentation_path_rewritten_to_proxy "doc://org.swift.X/documentation/X/Y"
    exampleRefMap "https://host.example" "/documentation/x/y" exampleRefEntry
    (by simp [exampleRefMap]) rfl (by decide) (by decide) (by decide)

/-- C8.  The renderer's recursion depth is capped: block content beyond
depth 50 and inline content beyond depth 20 render as the fixed
placeholder strings instead of descending further (the renderers are total
Lean functions, so rendering terminates on every input tree). -/
theorem c8_render_depth_capped (references : RefMap) (origin : Option String)
    (content inline : List CItem) (cDepth iDepth : Nat)
    (hc : 50 < cDepth) (hi : 20 < iDepth) :
    renderContentArray references origin content cDepth = "[Content too deeply nested]" ∧
    renderInlineContent references origin inline iDepth =
      "[Inline content too deeply nested]" := by
  constructor
  · simp [renderContentArray, hc]
  · simp [renderInlineContent, hi]

/-- C8 witness: at depths 51 and 21 a non-trivial node renders as the
placeholders. -/
theorem c8_witness :
    renderContentArray exampleRefMap none [exampleRefEntry] 51 =
      "[Content too deeply nested]" ∧
    renderInlineContent exampleRefMap none [exampleRefEntry] 21 =
      "[Inline content too deeply nested]" :=
  c8_render_depth_capped exampleRefMap none [exampleRefEntry] [exampleRefEntry] 51 21
    (by decide) (by decide)

/-- C9.  The URL validator agrees with the specification's contract
pointwise: the embedded `validateExternalDocumentationUrl` equals the
spec-side `validateUrlSpec` (empty/control/whitespace input and parse
failures to `InvalidURL`, non-https schemes to `UnsupportedScheme`,
credentials to `CredentialedURL`, non-empty fragments to
`FragmentNotSupported`, otherwise the parsed URL unchanged) composed with
the code's error messages. -/
theorem c9_validate_url_matches_spec (rawUrl : String)
    (parse : String → Option URLParts) :
    validateExternalDocumentationUrl rawUrl parse =
      (validateUrlSpec rawUrl parse).mapError urlErrorOfKind := by
  have hch : (rawUrl.data.any fun c => c.toNat ≤ 0x20 || c.toNat = 0x7f) =
      (rawUrl.data.any fun c => c.toNat < 0x20 || c.toNat = 0x20 || c.toNat = 0x7f) := by
    congr 1
    funext c
    by_cases h1 : c.toNat < 32
    · have h2 : c.toNat ≤ 32 := by omega
      simp [h1, h2]
    · by_cases h3 : c.toNat = 32
      · simp [h3]
      · have h2 : ¬ c.toNat ≤ 32 := by omega
        simp [h1, h2, h3]
  unfold validateExternalDocumentationUrl validateUrlSpec hasControlOrWhitespace
  rw [hch]
  by_cases h0 : (rawUrl = "" ||
      rawUrl.data.any fun c => c.toNat < 0x20 || c.toNat = 0x20 || c.toNat = 0x7f) = true
  · simp [h0, Except.mapError, urlErrorOfKind]
  · rw [Bool.not_eq_true] at h0
    rw [h0]
    simp only [Bool.false_eq_true, if_false]
    cases parse rawUrl with
    | none => simp [Except.mapError, urlErrorOfKind]
    | some u =>
      dsimp only
      split_ifs <;> simp [Except.mapError, urlErrorOfKind]

end Sosumi
